import Mathlib

/-!
Shallow embedding of the commit-comrade-bot tutorial pipeline.

The TypeScript source keeps two near-duplicate definitions of the
CodeAnalyzer agent in one file; the second, richer one (package manager,
entry points, modules, data-flow edges) is embedded in namespace
`CodeAnalyzerAgent`, the first, simpler one (tech stack, core modules,
summary) in namespace `CodeAnalyzerAgentV1`.  The Teacher agent's
learning-journey helpers and the orchestrator follow.

JavaScript strings are modelled as lists of characters, so that
`String.prototype.includes` becomes list-infix containment and
`Array.prototype.join` becomes an explicit separator-interleaving
recursion.
-/

namespace CommitComrade

/-- JavaScript strings, modelled as lists of characters. -/
abbrev Str := List Char

/-- Coerce a Lean string literal into the model. -/
def str (s : String) : Str := s.toList

/-- JS `String.prototype.toLowerCase`, per character (ASCII range). -/
def lower (s : Str) : Str := s.map Char.toLower

/-- JS `haystack.includes(needle)`: substring containment. -/
def incl (haystack needle : Str) : Bool := decide (needle <:+: haystack)

/-- JS `Array.prototype.join(' ')` on a list of strings. -/
def joinSp : List Str → Str
  | [] => []
  | [x] => x
  | x :: y :: xs => x ++ ' ' :: joinSp (y :: xs)

/-- JS `Array.prototype.join(sep)` for a general separator string. -/
def joinList (sep : Str) : List Str → Str
  | [] => []
  | [x] => x
  | x :: y :: xs => x ++ sep ++ joinList sep (y :: xs)

/-- JSON escaping of one character inside a JSON string literal. -/
def jsonEscapeChar (c : Char) : Str :=
  if c = '"' then ['\\', '"']
  else if c = '\\' then ['\\', '\\']
  else [c]

/-- A JSON string literal with its surrounding quotes. -/
def jsonString (s : Str) : Str := '"' :: (s.flatMap jsonEscapeChar) ++ ['"']

/-- JS `JSON.stringify(keyFiles || \x7b\x7d)` on a string-to-string record
(key order is the record's insertion order). -/
def jsonStringifyRecord : Option (List (Str × Str)) → Str
  | none => str "\x7b\x7d"
  | some kvs =>
    '\x7b' :: joinList [','] (kvs.map fun kv => jsonString kv.1 ++ ':' :: jsonString kv.2) ++ ['\x7d']

/-- One conditional `Set.add` site of the trigger-table scans: the label
when its trigger fired, nothing otherwise. -/
def addIf (b : Bool) (label : Str) : List Str := if b then [label] else []

/-- Repository metadata, from `types/agents.ts`. -/
structure Metadata where
  name : Str
  description : Str
  language : Str
  stars : Int
  forks : Int
deriving DecidableEq

/-- Type `RepoSnapshot` from `types/agents.ts`: every field is optional. -/
structure RepoSnapshot where
  readme : Option Str
  fileTree : Option (List Str)
  keyFiles : Option (List (Str × Str))
  metadata : Option Metadata
deriving DecidableEq

/-- Type `AgentResponse` from `types/agents.ts`; `data` is typed per agent. -/
structure AgentResponse (α : Type) where
  success : Bool
  data : Option α
  error : Option Str
  agentName : Str
deriving DecidableEq

namespace CodeAnalyzerAgent

/-- The `dev_commands` triple returned by `inferDevCommands`. -/
structure DevCommands where
  install : Str
  run : Str
  test : Str
deriving DecidableEq

/-- One module record built by `buildModules`. -/
structure Module where
  name : Str
  files : List Str
  purpose : Str
  key_symbols : List Str
deriving DecidableEq

/-- One data-flow edge from `inferDataFlowEdges`.  The TS object fields are
`from`/`to`/`why`; `from` is a Lean keyword, hence `edgeFrom`/`edgeTo`.
An absent JS array element (`files[0]` on an empty array) is `none`. -/
structure Edge where
  edgeFrom : Option Str
  edgeTo : Option Str
  why : Str
deriving DecidableEq

/-- One glossary entry from `generateTermExplanations`. -/
structure TermEntry where
  term : Str
  definition : Str
deriving DecidableEq

/-- Function `detectPackageManager(fileTree, keyFiles)` from the second
CodeAnalyzerAgent definition: lock-file markers checked on the joined,
lower-cased file tree, in source order; no file tree means "unknown". -/
def detectPackageManager (fileTree : Option (List Str))
    (_keyFiles : Option (List (Str × Str))) : Str :=
  match fileTree with
  | none => str "unknown"
  | some ft =>
    let fileTreeStr := lower (joinSp ft)
    if incl fileTreeStr (str "package-lock.json") then str "npm"
    else if incl fileTreeStr (str "yarn.lock") then str "yarn"
    else if incl fileTreeStr (str "pnpm-lock.yaml") then str "pnpm"
    else if incl fileTreeStr (str "poetry.lock") || incl fileTreeStr (str "pyproject.toml") then
      str "poetry"
    else if incl fileTreeStr (str "requirements.txt") || incl fileTreeStr (str "pipfile") then
      str "pip"
    else str "unknown"

/-- Function `inferDevCommands(packageManager, keyFiles)`: static lookup from the
package manager to an install/run/test triple; unknown manager gives the
all-"unknown" triple. -/
def inferDevCommands (packageManager : Str)
    (_keyFiles : Option (List (Str × Str))) : DevCommands :=
  if packageManager = str "npm" then
    ⟨str "npm install", str "npm run dev", str "npm test"⟩
  else if packageManager = str "yarn" then
    ⟨str "yarn install", str "yarn dev", str "yarn test"⟩
  else if packageManager = str "pnpm" then
    ⟨str "pnpm install", str "pnpm dev", str "pnpm test"⟩
  else if packageManager = str "pip" then
    ⟨str "pip install -r requirements.txt", str "python main.py", str "pytest"⟩
  else if packageManager = str "poetry" then
    ⟨str "poetry install", str "poetry run python main.py", str "poetry run pytest"⟩
  else
    ⟨str "unknown", str "unknown", str "unknown"⟩

/-- The fixed entry-filename patterns of `findEntryPoints`, in source order. -/
def entryPatterns : List Str :=
  [str "index.js", str "index.ts", str "index.tsx", str "index.jsx",
   str "main.js", str "main.ts", str "main.tsx", str "main.py",
   str "app.js", str "app.ts", str "app.tsx", str "app.py",
   str "server.js", str "server.ts",
   str "src/index", str "src/main", str "src/app"]

/-- Function `findEntryPoints(fileTree, keyFiles)`: walk the file tree in order; a
file is kept when some pattern matches (the inner loop breaks on the first
hit, so each file occurrence is pushed at most once); cap at 5. -/
def findEntryPoints (fileTree : Option (List Str))
    (_keyFiles : Option (List (Str × Str))) : List Str :=
  match fileTree with
  | none => []
  | some ft =>
    (ft.filter fun file => entryPatterns.any fun p => incl (lower file) (lower p)).take 5

/-- Function `detectMainConcepts(fileTree, keyFiles, readme)`: substring triggers over
the concatenated lower-cased corpus, collected in source order (each label
has a single add site, so the JS `Set` is a plain ordered list), cap 8. -/
def detectMainConcepts (fileTree : Option (List Str))
    (keyFiles : Option (List (Str × Str))) (readme : Option Str) : List Str :=
  let allContent :=
    lower ((match fileTree with | some ft => joinSp ft | none => []) ++
      ' ' :: jsonStringifyRecord keyFiles ++
      ' ' :: (match readme with | some r => r | none => []))
  let has := fun pat => incl allContent (str pat)
  let concepts := List.flatten
    [addIf (has "ssr" || has "server-side") (str "SSR"),
     addIf (has "api" || has "endpoint") (str "REST API"),
     addIf (has "graphql") (str "GraphQL"),
     addIf (has "websocket") (str "WebSocket"),
     addIf (has "redux" || has "zustand" || has "state") (str "State Management"),
     addIf (has "component") (str "Component-based UI"),
     addIf (has "routing" || has "router") (str "Routing"),
     addIf (has "middleware") (str "Middleware"),
     addIf (has "authentication" || has "auth") (str "Authentication"),
     addIf (has "database" || has "db") (str "Database")]
  concepts.take 8

/-- JS `file.split('/').pop()`: the path component after the last slash. -/
def lastComponent (f : Str) : Str :=
  (f.reverse.takeWhile fun c => c ≠ '/').reverse

/-- The alternatives of the extension-stripping regex in
`extractKeySymbols`.  The regex matches exactly when the name ends with one
of these suffixes, and removes that suffix (the four-character suffixes
cannot overlap with the three-character ones). -/
def extSuffixes : List Str := [str ".tsx", str ".jsx", str ".ts", str ".js", str ".py"]

/-- JS `filename.replace(regex dot-ts-tsx-js-jsx-py-end, '')`. -/
def stripExt (f : Str) : Str :=
  match extSuffixes.find? fun e => decide (e <:+ f) with
  | some e => f.take (f.length - e.length)
  | none => f

/-- Function `extractKeySymbols(files, keyFiles)`: for the first 3 files, take the
file name stripped of directory and extension, skipping empty results
(`pop()` of a path ending in a slash, or a bare extension); cap 5. -/
def extractKeySymbols (files : List Str)
    (_keyFiles : Option (List (Str × Str))) : List Str :=
  ((files.take 3).filterMap fun file =>
    let filename := stripExt (lastComponent file)
    if filename = [] then none else some filename).take 5

/-- The fixed fragment table of `buildModules`: pattern, module name,
purpose, in source (insertion) order. -/
def modulePatterns : List (Str × Str × Str) :=
  [(str "components", str "UI Components", str "Reusable UI building blocks"),
   (str "services", str "Business Services", str "Core business logic and external integrations"),
   (str "utils", str "Utility Functions", str "Helper functions and utilities"),
   (str "api", str "API Layer", str "Backend API endpoints and routes"),
   (str "pages", str "Application Pages", str "Top-level page components and views"),
   (str "hooks", str "Custom Hooks", str "Reusable React hooks for state and side effects"),
   (str "models", str "Data Models", str "Data structures and schemas"),
   (str "controllers", str "Controllers", str "Request handlers and business logic"),
   (str "store", str "State Store", str "Global state management")]

/-- The files of the tree matched by one fragment of `buildModules`:
lower-cased path contains `/fragment/` or `\fragment\`. -/
def moduleFiles (ft : List Str) (pattern : Str) : List Str :=
  ft.filter fun f =>
    incl (lower f) ('/' :: pattern ++ ['/']) || incl (lower f) ('\\' :: pattern ++ ['\\'])

/-- Function `buildModules(fileTree, keyFiles)`: one module per matching fragment, in
the fragment table's order (the JS `Map` is keyed by the distinct fragment
strings, so insertion order is table order); files capped at 5, key symbols
extracted from the uncapped match list. -/
def buildModules (fileTree : Option (List Str))
    (keyFiles : Option (List (Str × Str))) : List Module :=
  match fileTree with
  | none => []
  | some ft =>
    modulePatterns.filterMap fun pat =>
      let files := moduleFiles ft pat.1
      if files = [] then none
      else some { name := pat.2.1, files := files.take 5, purpose := pat.2.2,
                  key_symbols := extractKeySymbols files keyFiles }

/-- Function `inferDataFlowEdges(modules, entry_points)`: under one guard, push an
entry-point-to-pages edge when a "page"-named module with files exists, then
a pages-to-components edge when both a "page"-named and a "component"-named
module exist and the latter has files (the second push reads
`pagesModule.files[0]` without re-checking that it is nonempty). -/
def inferDataFlowEdges (modules : List Module) (entry_points : List Str) : List Edge :=
  if 0 < entry_points.length ∧ 1 < modules.length then
    let entryFile := entry_points.head?
    let pagesModule := modules.find? fun m => incl (lower m.name) (str "page")
    let componentsModule := modules.find? fun m => incl (lower m.name) (str "component")
    (match pagesModule with
     | some pm =>
       if 0 < pm.files.length then
         [⟨entryFile, pm.files.head?, str "Entry point initializes and renders pages"⟩]
       else []
     | none => []) ++
    (match pagesModule, componentsModule with
     | some pm, some cm =>
       if 0 < cm.files.length then
         [⟨pm.files.head?, cm.files.head?, str "Pages compose and render UI components"⟩]
       else []
     | _, _ => [])
  else []

/-- The package-manager explanation table of `generateTermExplanations`. -/
def pmExplanations : List (Str × Str) :=
  [(str "npm", str "Node Package Manager - default package manager for Node.js projects"),
   (str "yarn", str "Fast, reliable package manager alternative to npm"),
   (str "pnpm", str "Performant npm - disk space efficient package manager"),
   (str "pip", str "Python package installer for managing Python libraries"),
   (str "poetry", str "Python dependency management and packaging tool")]

/-- The concept definition table of `generateTermExplanations`. -/
def conceptDefs : List (Str × Str) :=
  [(str "SSR", str "Server-Side Rendering - rendering pages on the server before sending to client"),
   (str "REST API", str "Representational State Transfer - architectural style for web services"),
   (str "GraphQL", str "Query language for APIs providing efficient data fetching"),
   (str "State Management", str "Managing and synchronizing application state across components"),
   (str "Component-based UI", str "Building UIs from reusable, self-contained components"),
   (str "Authentication", str "Verifying user identity and managing access control"),
   (str "Middleware", str "Software layer that processes requests between client and server")]

/-- Lookup in a static string table (JS object property access). -/
def tableLookup (tbl : List (Str × Str)) (k : Str) : Option Str :=
  (tbl.find? fun kv => kv.1 = k).map fun kv => kv.2

/-- Function `generateTermExplanations(packageManager, concepts)`: the package
manager's entry (when not "unknown" and present in the table), then the
entry of each concept found in the concept table; missing keys are skipped. -/
def generateTermExplanations (packageManager : Str) (concepts : List Str) : List TermEntry :=
  (if packageManager ≠ str "unknown" then
    match tableLookup pmExplanations packageManager with
    | some d => [⟨packageManager, d⟩]
    | none => []
   else []) ++
  concepts.filterMap fun c => (tableLookup conceptDefs c).map fun d => ⟨c, d⟩

/-- The record returned by the second `performAnalysis`. -/
structure AnalysisRecord where
  repo_name : Str
  package_manager : Str
  dev_commands : DevCommands
  entry_points : List Str
  main_concepts : List Str
  modules : List Module
  data_flow_edges : List Edge
  explain_terms : List TermEntry
  ground_truth_paths : List Str
deriving DecidableEq

/-- The second `performAnalysis(repoSnapshot)`: assembles the richer
analysis record; `metadata?.name || 'unknown/repo'` treats an absent
metadata object or an empty name as "unknown/repo". -/
def performAnalysis (s : RepoSnapshot) : AnalysisRecord :=
  let ground_truth_paths := match s.fileTree with | some ft => ft | none => []
  let package_manager := detectPackageManager s.fileTree s.keyFiles
  let dev_commands := inferDevCommands package_manager s.keyFiles
  let entry_points := findEntryPoints s.fileTree s.keyFiles
  let main_concepts := detectMainConcepts s.fileTree s.keyFiles s.readme
  let modules := buildModules s.fileTree s.keyFiles
  let data_flow_edges := inferDataFlowEdges modules entry_points
  let explain_terms := generateTermExplanations package_manager main_concepts
  { repo_name :=
      match s.metadata with
      | some md => if md.name = [] then str "unknown/repo" else md.name
      | none => str "unknown/repo",
    package_manager, dev_commands, entry_points, main_concepts, modules,
    data_flow_edges, explain_terms, ground_truth_paths }

/-- The second `analyzeRepo(repoSnapshot)`.  The TS body wraps
`performAnalysis` in try/catch; `performAnalysis` is total on well-formed
snapshots (every optional access is guarded), so the catch branch is
unreachable and the response is always the success case. -/
def analyzeRepo (s : RepoSnapshot) : AgentResponse AnalysisRecord :=
  { success := true, data := some (performAnalysis s), error := none,
    agentName := str "CodeAnalyzer" }

end CodeAnalyzerAgent

namespace CodeAnalyzerAgentV1

/-- One core-module record of the first `identifyCoreModules`. -/
structure CoreModule where
  name : Str
  purpose : Str
deriving DecidableEq

/-- One important-file record of the first `findImportantFiles`. -/
structure ImportantFile where
  file : Str
  description : Str
deriving DecidableEq

/-- The record returned by the first `performAnalysis`. -/
structure AnalysisV1 where
  tech_stack : List Str
  core_modules : List CoreModule
  important_files : List ImportantFile
  summary : Str
deriving DecidableEq

/-- The first `detectTechStack(fileTree, keyFiles, readme)`: substring
triggers over the concatenated lower-cased corpus, collected in source
order (each label has a single add site, so the JS `Set` is a plain
ordered list). -/
def detectTechStack (fileTree : Option (List Str))
    (keyFiles : Option (List (Str × Str))) (readme : Option Str) : List Str :=
  let fileTreeStr := match fileTree with | some ft => lower (joinSp ft) | none => []
  let keyFilesStr := lower (jsonStringifyRecord keyFiles)
  let readmeStr := match readme with | some r => lower r | none => []
  let allContent := fileTreeStr ++ ' ' :: keyFilesStr ++ ' ' :: readmeStr
  let has := fun pat => incl allContent (str pat)
  List.flatten
    [addIf (has "react" || has ".jsx" || has ".tsx") (str "React"),
     addIf (has "vue") (str "Vue.js"),
     addIf (has "angular") (str "Angular"),
     addIf (has "svelte") (str "Svelte"),
     addIf (has "next") (str "Next.js"),
     addIf (has "express") (str "Express.js"),
     addIf (has "django") (str "Django"),
     addIf (has "flask") (str "Flask"),
     addIf (has "rails") (str "Ruby on Rails"),
     addIf (has "spring") (str "Spring Boot"),
     addIf (has ".ts" || has "typescript") (str "TypeScript"),
     addIf (has ".js" || has "javascript") (str "JavaScript"),
     addIf (has ".py" || has "python") (str "Python"),
     addIf (has ".java") (str "Java"),
     addIf (has ".go") (str "Go"),
     addIf (has ".rb" || has "ruby") (str "Ruby"),
     addIf (has "webpack") (str "Webpack"),
     addIf (has "vite") (str "Vite"),
     addIf (has "rollup") (str "Rollup"),
     addIf (has "postgres" || has "postgresql") (str "PostgreSQL"),
     addIf (has "mongo") (str "MongoDB"),
     addIf (has "mysql") (str "MySQL"),
     addIf (has "redis") (str "Redis"),
     addIf (has "jest") (str "Jest"),
     addIf (has "pytest") (str "Pytest"),
     addIf (has "mocha") (str "Mocha")]

/-- The fixed pattern table of the first `identifyCoreModules`, in source
(insertion) order. -/
def corePatterns : List (Str × Str) :=
  [(str "src/components", str "UI Components"),
   (str "components", str "UI Components"),
   (str "src/services", str "Business Logic Services"),
   (str "services", str "Business Logic Services"),
   (str "src/utils", str "Utility Functions"),
   (str "utils", str "Utility Functions"),
   (str "src/api", str "API Integration"),
   (str "api", str "API Layer"),
   (str "src/models", str "Data Models"),
   (str "models", str "Data Models"),
   (str "src/controllers", str "Request Controllers"),
   (str "controllers", str "Request Controllers"),
   (str "src/views", str "View Templates"),
   (str "views", str "View Templates"),
   (str "src/store", str "State Management"),
   (str "store", str "State Management"),
   (str "src/hooks", str "Custom React Hooks"),
   (str "hooks", str "Custom Hooks"),
   (str "src/pages", str "Application Pages"),
   (str "pages", str "Application Pages"),
   (str "tests", str "Test Suite"),
   (str "test", str "Test Suite")]

/-- The first `identifyCoreModules(fileTree, keyFiles)`: for each pattern of
the table (case-sensitive containment this time), a module when some file
contains it. -/
def identifyCoreModules (fileTree : Option (List Str))
    (_keyFiles : Option (List (Str × Str))) : List CoreModule :=
  match fileTree with
  | none => []
  | some ft =>
    corePatterns.filterMap fun pr =>
      if ft.any fun f => incl f pr.1 then some ⟨pr.1, pr.2⟩ else none

/-- The fixed pattern table of the first `findImportantFiles`. -/
def importantPatterns : List (Str × Str) :=
  [(str "package.json", str "NPM package configuration and dependencies"),
   (str "requirements.txt", str "Python dependencies"),
   (str "Dockerfile", str "Docker container configuration"),
   (str "docker-compose.yml", str "Docker compose orchestration"),
   (str ".env", str "Environment variables"),
   (str "config", str "Configuration files"),
   (str "tsconfig.json", str "TypeScript configuration"),
   (str "webpack.config", str "Webpack bundler configuration"),
   (str "vite.config", str "Vite build configuration"),
   (str "README.md", str "Project documentation"),
   (str "index.html", str "Main HTML entry point"),
   (str "main.", str "Application entry point"),
   (str "app.", str "Main application file"),
   (str "server.", str "Server entry point")]

/-- The first `findImportantFiles(fileTree, keyFiles)`: walk the file tree;
the inner pattern loop breaks on the first case-insensitive hit; cap 10. -/
def findImportantFiles (fileTree : Option (List Str))
    (_keyFiles : Option (List (Str × Str))) : List ImportantFile :=
  match fileTree with
  | none => []
  | some ft =>
    (ft.filterMap fun f =>
      (importantPatterns.find? fun pr => incl (lower f) (lower pr.1)).map
        fun pr => (⟨f, pr.2⟩ : ImportantFile)).take 10

/-- The first `generateSummary(metadata, tech_stack, core_modules)`:
concatenate the metadata, tech-stack and module clauses in fixed order,
falling back to the literal completed-analysis sentence when everything is
empty. -/
def generateSummary (metadata : Option Metadata) (tech_stack : Option (List Str))
    (core_modules : Option (List CoreModule)) : Str :=
  let s1 := match metadata with
    | none => []
    | some md =>
      md.name ++ str " is a " ++
      (if md.language = [] then str "software" else md.language) ++ str " project" ++
      (if md.description = [] then [] else str ": " ++ md.description) ++ str ". "
  let s2 := match tech_stack with
    | some ts =>
      if 0 < ts.length then
        str "The project uses " ++ joinList (str ", ") (ts.take 5) ++ str ". "
      else []
    | none => []
  let s3 := match core_modules with
    | some ms =>
      if 0 < ms.length then
        str "Key modules include " ++
          joinList (str ", ") ((ms.take 3).map fun m => m.name) ++ str ". "
      else []
    | none => []
  let summary := s1 ++ s2 ++ s3
  if summary = [] then str "Repository analysis completed." else summary

/-- The first `performAnalysis(repoSnapshot)`. -/
def performAnalysis (s : RepoSnapshot) : AnalysisV1 :=
  let tech_stack := detectTechStack s.fileTree s.keyFiles s.readme
  let core_modules := identifyCoreModules s.fileTree s.keyFiles
  let important_files := findImportantFiles s.fileTree s.keyFiles
  let summary := generateSummary s.metadata (some tech_stack) (some core_modules)
  { tech_stack, core_modules, important_files, summary }

end CodeAnalyzerAgentV1

namespace TeacherAgent

open CodeAnalyzerAgent

/-- The advanced-concept list of `determineDifficulty`. -/
def advancedConcepts : List Str :=
  [str "GraphQL", str "WebSocket", str "Middleware", str "SSR"]

/-- Function `determineDifficulty(main_concepts, modules)` (both TeacherAgent
definitions carry the identical body): absent `main_concepts` is "beginner"
outright; otherwise an advanced concept or more than 10 modules gives
"advanced", more than 5 modules "intermediate", else "beginner". -/
def determineDifficulty (main_concepts : Option (List Str))
    (modules : Option (List Module)) : Str :=
  match main_concepts with
  | none => str "beginner"
  | some cs =>
    let hasAdvanced := cs.any fun c => decide (c ∈ advancedConcepts)
    if hasAdvanced || (match modules with
        | some ms => decide (10 < ms.length)
        | none => false) then
      str "advanced"
    else if (match modules with
        | some ms => decide (5 < ms.length)
        | none => false) then
      str "intermediate"
    else str "beginner"

/-- Modelled from the spec's words, for comparison with
`determineDifficulty`: difficulty is "advanced" when there are more than 10
modules or any advanced concept is present, "intermediate" when there are
more than 5 modules, and "beginner" otherwise (an absent module list
counts as zero modules). -/
def specDifficulty (main_concepts : List Str) (modules : Option (List Module)) : Str :=
  let moduleCount := match modules with | some ms => ms.length | none => 0
  if decide (10 < moduleCount) || main_concepts.any (fun c => decide (c ∈ advancedConcepts)) then
    str "advanced"
  else if decide (5 < moduleCount) then str "intermediate"
  else str "beginner"

/-- One quiz entry of a learning-path stage. -/
structure QuizItem where
  question : Str
  options : List Str
  answer : Str
deriving DecidableEq

/-- One stage of the interactive learning path; the fields a TS stage
object omits are `none` (or the empty quiz list wrapped in `none`). -/
structure Stage where
  stage : Str
  goal : Str
  concepts : List Str
  steps : List Str
  checkpoint : Str
  quiz : Option (List QuizItem)
  mini_challenge : Option Str
  final_challenge : Option Str
deriving DecidableEq

/-- JS `array.filter((v, i, a) => a.indexOf(v) === i)`: keep the first
occurrence of each value, drop later duplicates. -/
def dedupFirstAux (seen : List Str) : List Str → List Str
  | [] => []
  | x :: xs =>
    if x ∈ seen then dedupFirstAux seen xs
    else x :: dedupFirstAux (x :: seen) xs

/-- The deduplication entry point (no values seen yet). -/
def dedupFirst (l : List Str) : List Str := dedupFirstAux [] l

/-- JS `dev_commands?.install || 'unknown'` (an empty string is falsy). -/
def installOf (dev_commands : Option DevCommands) : Str :=
  match dev_commands with
  | some dc => if dc.install = [] then str "unknown" else dc.install
  | none => str "unknown"

/-- JS `dev_commands?.run || 'unknown'` (an empty string is falsy). -/
def runOf (dev_commands : Option DevCommands) : Str :=
  match dev_commands with
  | some dc => if dc.run = [] then str "unknown" else dc.run
  | none => str "unknown"

/-- Function `generateInteractiveLearningPath(main_concepts, modules, entry_points,
dev_commands, packageManager)` from the second TeacherAgent definition:
the four fixed stages, with the real install/run commands, entry point and
first module interpolated where available. -/
def generateInteractiveLearningPath (main_concepts : Option (List Str))
    (modules : Option (List Module)) (entry_points : Option (List Str))
    (dev_commands : Option DevCommands) (_packageManager : Option Str) : List Stage :=
  let installCmd := installOf dev_commands
  let runCmd := runOf dev_commands
  let stage1 : Stage :=
    { stage := str "Setup & Run",
      goal := str "Get the project running locally",
      concepts := [str "installation", str "dependency management", str "environment setup"],
      steps :=
        [str "Clone the repository to your local machine",
         str "Read the README.md for setup instructions",
         str "Install dependencies: " ++ installCmd,
         str "Run the development server: " ++ runCmd],
      checkpoint := str "You can successfully run the project and see the output in your browser or terminal",
      quiz := some
        [{ question := str "Which command installs dependencies in this project?",
           options := dedupFirst
             [installCmd, str "pip install", str "npm install", str "yarn install"],
           answer := installCmd }],
      mini_challenge := none, final_challenge := none }
  let entryFile := match entry_points with
    | some (e :: _) => e
    | _ => str "the entry point file"
  let stage2 : Stage :=
    { stage := str "Architecture & Core Logic",
      goal := str "Understand how main components interact",
      concepts := match main_concepts with
        | some cs => cs.take 3
        | none => [str "code architecture", str "data flow"],
      steps :=
        [str "Open " ++ entryFile ++ str " to understand the app initialization",
         str "Trace the main data flow through the application",
         str "Map out how different modules communicate",
         str "Document the architecture in a simple diagram"],
      checkpoint := str "You can explain the project architecture and main data flow",
      quiz := none,
      mini_challenge := some (str "Add a console.log or print statement in a key function and verify it executes when you interact with the app."),
      final_challenge := none }
  let firstModule := match modules with
    | some (m :: _) => some m
    | _ => none
  let stage3 : Stage :=
    { stage := str "Feature Exploration",
      goal := str "Experiment with modifying a core feature",
      concepts := [str "code modification", str "testing changes", str "debugging"],
      steps :=
        [(match firstModule with
          | some m => str "Open the " ++ m.name ++ str " module"
          | none => str "Choose a main component to modify"),
         (match firstModule with
          | some m => str "Explore files: " ++ joinList (str ", ") (m.files.take 2)
          | none => str "Pick a file to modify"),
         str "Make a small change (e.g., update text, change a color, modify logic)",
         str "Run " ++ runCmd ++ str " and verify your change appears"],
      checkpoint := str "You successfully modified a feature and confirmed the result",
      quiz := none,
      mini_challenge := some (str "Add a new button or function that logs user interaction to the console."),
      final_challenge := none }
  let stage4 : Stage :=
    { stage := str "Build Your Own",
      goal := str "Create a small new feature from scratch",
      concepts := [str "feature implementation", str "code organization", str "best practices"],
      steps :=
        [str "Plan a small addition (like a new component, function, or route)",
         str "Follow the existing code patterns and conventions",
         str "Implement your feature step by step",
         str "Test it thoroughly and document what you built"],
      checkpoint := str "You build a working mini-feature using what you learned",
      quiz := none,
      mini_challenge := none,
      final_challenge := some (str "Build a feature that interacts with existing code (e.g., a new UI element that uses existing data or a utility function).") }
  [stage1, stage2, stage3, stage4]

end TeacherAgent

namespace AgentOrchestrator

open CodeAnalyzerAgent

/-- The (untyped in TS) `data` payload stored in the per-step result
record: a snapshot, an analysis record, or the tutorial document. -/
inductive AgentData where
  | snap : RepoSnapshot → AgentData
  | analysis : AnalysisRecord → AgentData
  | doc : Str → AgentData
deriving DecidableEq

/-- View a typed agent response as a record entry (the TS record holds the
response object itself; only the payload type is erased here). -/
def liftResponse {α : Type} (f : α → AgentData) (r : AgentResponse α) :
    AgentResponse AgentData :=
  { success := r.success, data := r.data.map f, error := r.error,
    agentName := r.agentName }

/-- The record returned by `AgentOrchestrator.generateTutorial`; the
per-step result record is an insertion-ordered key/value list. -/
structure TutorialRunResult where
  success : Bool
  tutorial : Option Str
  error : Option Str
  agentResults : List (Str × AgentResponse AgentData)
deriving DecidableEq

/-- JS template interpolation of a possibly-undefined error field
(an absent value prints as "undefined"). -/
def tmplError : Option Str → Str
  | some e => e
  | none => str "undefined"

/-- Method `AgentOrchestrator.generateTutorial(repoUrl)`, with the three agents as
explicit collaborators (the crawler performs network I/O and the TS class
wires singleton instances; the control flow below is the method body: each
step's response is recorded, a failed step throws, and the catch block
returns the failure with the error message and the entries recorded so
far). -/
def generateTutorial
    (crawl : Str → AgentResponse RepoSnapshot)
    (analyze : Option RepoSnapshot → AgentResponse AnalysisRecord)
    (teach : Option RepoSnapshot → Option AnalysisRecord → AgentResponse Str)
    (repoUrl : Str) : TutorialRunResult :=
  let crawlerResult := crawl repoUrl
  let r1 := [(str "repoCrawler", liftResponse AgentData.snap crawlerResult)]
  if !crawlerResult.success then
    { success := false, tutorial := none,
      error := some (str "RepoCrawler failed: " ++ tmplError crawlerResult.error),
      agentResults := r1 }
  else
    let analyzerResult := analyze crawlerResult.data
    let r2 := r1 ++ [(str "codeAnalyzer", liftResponse AgentData.analysis analyzerResult)]
    if !analyzerResult.success then
      { success := false, tutorial := none,
        error := some (str "CodeAnalyzer failed: " ++ tmplError analyzerResult.error),
        agentResults := r2 }
    else
      let teacherResult := teach crawlerResult.data analyzerResult.data
      let r3 := r2 ++ [(str "teacher", liftResponse AgentData.doc teacherResult)]
      if !teacherResult.success then
        { success := false, tutorial := none,
          error := some (str "Teacher failed: " ++ tmplError teacherResult.error),
          agentResults := r3 }
      else
        { success := true, tutorial := teacherResult.data, error := none,
          agentResults := r3 }

end AgentOrchestrator

/-- The degenerate snapshot: empty file tree, no README, no key files, no
metadata. -/
def emptySnapshot : RepoSnapshot :=
  { readme := none, fileTree := some [], keyFiles := none, metadata := none }

/-- A file tree whose components directory holds three files before
`src/components/Foo.tsx`. -/
def ftThreeBeforeFoo : List Str :=
  [str "a/components/x.ts", str "a/components/y.ts", str "a/components/z.ts",
   str "src/components/Foo.tsx"]

/-!
Lemmas about the string model: containment interacts with `joinSp` the way
`String.prototype.includes` interacts with `Array.prototype.join(' ')`
when the needle has no space in it.
-/

/-- A pattern that avoids a character `c` and prefixes `a ++ c :: b`
already prefixes `a`. -/
theorem prefix_through_sep (p : Str) (a b : Str) (c : Char)
    (hc : c ∉ p) (h : p <+: a ++ c :: b) : p <+: a := by
  induction p generalizing a with
  | nil => exact List.nil_prefix
  | cons d p ih =>
    cases a with
    | nil =>
      rcases List.cons_prefix_cons.mp h with ⟨rfl, -⟩
      exact absurd (List.mem_cons_self _ _) hc
    | cons x a =>
      rcases List.cons_prefix_cons.mp h with ⟨rfl, h2⟩
      exact List.cons_prefix_cons.mpr
        ⟨rfl, ih a (fun hm => hc (List.mem_cons_of_mem _ hm)) h2⟩

/-- A substring of `a ++ c :: b` that avoids `c` lies inside `a` or
inside `b`. -/
theorem sub_through_sep (a : Str) (p b : Str) (c : Char)
    (hc : c ∉ p) (h : p <:+: a ++ c :: b) : p <:+: a ∨ p <:+: b := by
  induction a with
  | nil =>
    rcases List.infix_cons_iff.mp h with h1 | h1
    · cases p with
      | nil => exact Or.inl List.nil_infix
      | cons d p =>
        rcases List.cons_prefix_cons.mp h1 with ⟨rfl, -⟩
        exact absurd (List.mem_cons_self _ _) hc
    · exact Or.inr h1
  | cons x a ih =>
    rcases List.infix_cons_iff.mp h with h1 | h1
    · exact Or.inl ( List.IsPrefix.isInfix (prefix_through_sep p (x :: a) b c hc h1))
    · rcases ih h1 with h2 | h2
      · exact Or.inl (List.infix_cons h2)
      · exact Or.inr h2

/-- A nonempty space-free substring of a space-joined list lies inside one
of the joined pieces. -/
theorem sub_of_joinSp (l : List Str) (p : Str)
    (hne : p ≠ []) (hsp : ' ' ∉ p) (h : p <:+: joinSp l) : ∃ x ∈ l, p <:+: x := by
  induction l with
  | nil =>
    exact absurd (List.eq_nil_of_infix_nil h) hne
  | cons x xs ih =>
    cases xs with
    | nil => exact ⟨x, List.mem_singleton_self x, h⟩
    | cons y ys =>
      have h' : p <:+: x ++ ' ' :: joinSp (y :: ys) := h
      rcases sub_through_sep x p (joinSp (y :: ys)) ' ' hsp h' with h1 | h1
      · exact ⟨x, List.mem_cons_self _ _, h1⟩
      · rcases ih h1 with ⟨z, hz, hzp⟩
        exact ⟨z, List.mem_cons_of_mem _ hz, hzp⟩

/-- Every joined piece is a substring of the space-joined list. -/
theorem piece_sub_joinSp (l : List Str) (x : Str) (hx : x ∈ l) : x <:+: joinSp l := by
  induction l with
  | nil => cases hx
  | cons z zs ih =>
    cases zs with
    | nil =>
      rcases List.mem_singleton.mp hx with rfl
      exact List.infix_rfl
    | cons y ys =>
      rcases List.mem_cons.mp hx with rfl | hx'
      · exact List.IsPrefix.isInfix ⟨' ' :: joinSp (y :: ys), rfl⟩
      · exact List.IsInfix.trans (ih hx')
          ( List.IsSuffix.isInfix ⟨z ++ [' '], by simp [joinSp]⟩)

/-- Lower-casing commutes with space-joining (a space is its own lower
case). -/
theorem lower_joinSp (l : List Str) : lower (joinSp l) = joinSp (l.map lower) := by
  induction l with
  | nil => rfl
  | cons x xs ih =>
    cases xs with
    | nil => rfl
    | cons y ys =>
      show lower (x ++ ' ' :: joinSp (y :: ys)) = lower x ++ ' ' :: joinSp ((y :: ys).map lower)
      rw [← ih]
      simp [lower]

/-- Claim C3: for every repository snapshot (any combination of absent
fields), the classifier `analyzeRepo` returns a successful result — never a
failure — and absent input fields degrade to empty output collections
(shown for the snapshot with every field absent) rather than errors. -/
theorem c3_analyzeRepo_never_fails (s : RepoSnapshot) :
    (CodeAnalyzerAgent.analyzeRepo s).success = true
    ∧ (CodeAnalyzerAgent.analyzeRepo s).error = none
    ∧ (CodeAnalyzerAgent.analyzeRepo s).data = some (CodeAnalyzerAgent.performAnalysis s)
    ∧ (CodeAnalyzerAgent.performAnalysis
        { readme := none, fileTree := none, keyFiles := none, metadata := none }
      = { repo_name := str "unknown/repo", package_manager := str "unknown",
          dev_commands := ⟨str "unknown", str "unknown", str "unknown"⟩,
          entry_points := [], main_concepts := [], modules := [],
          data_flow_edges := [], explain_terms := [], ground_truth_paths := [] }) := by
  refine ⟨rfl, rfl, rfl, ?_⟩
  decide

/-- Claim C7: on the empty snapshot (empty file tree, no README, no key
files, no metadata) the classifier returns empty collections everywhere,
package manager "unknown", and the literal fallback summary.  The spec's
"classifier" merges the two source variants: the richer second variant
carries the module/entry-point/concept collections and the package
manager, the first variant the tech stack and the summary. -/
theorem c7_empty_snapshot_analysis :
    (CodeAnalyzerAgent.performAnalysis emptySnapshot
      = { repo_name := str "unknown/repo", package_manager := str "unknown",
          dev_commands := ⟨str "unknown", str "unknown", str "unknown"⟩,
          entry_points := [], main_concepts := [], modules := [],
          data_flow_edges := [], explain_terms := [], ground_truth_paths := [] })
    ∧ (CodeAnalyzerAgentV1.performAnalysis emptySnapshot
      = { tech_stack := [], core_modules := [], important_files := [],
          summary := str "Repository analysis completed." }) := by
  constructor
  · decide
  · decide

/-- Claim C4: when the file tree has a path containing "yarn.lock" and no
path containing "package-lock.json" (containment read case-insensitively,
as the detection itself lower-cases), the package manager is "yarn" and
never "npm"; "package-lock.json" anywhere wins over "yarn.lock" (the fixed
priority order, first match wins); and with no file tree the detection
returns "unknown". -/
theorem c4_package_manager_priority (ft : List Str) (kf : Option (List (Str × Str))) :
    ((∃ p ∈ ft, str "yarn.lock" <:+: lower p) →
      (∀ p ∈ ft, ¬ (str "package-lock.json" <:+: lower p)) →
      CodeAnalyzerAgent.detectPackageManager (some ft) kf = str "yarn")
    ∧ ((∃ p ∈ ft, str "package-lock.json" <:+: lower p) →
      CodeAnalyzerAgent.detectPackageManager (some ft) kf = str "npm")
    ∧ CodeAnalyzerAgent.detectPackageManager none kf = str "unknown" := by
  have hup : ∀ (pat : Str), (∃ p ∈ ft, pat <:+: lower p) →
      pat <:+: lower (joinSp ft) := by
    rintro pat ⟨p, hp, hpat⟩
    exact List.IsInfix.trans hpat (List.IsInfix.map Char.toLower (piece_sub_joinSp ft p hp))
  have hdown : ∀ (pat : Str), pat ≠ [] → ' ' ∉ pat →
      (∀ p ∈ ft, ¬ (pat <:+: lower p)) → ¬ (pat <:+: lower (joinSp ft)) := by
    intro pat hne hsp hall h
    rw [lower_joinSp] at h
    rcases sub_of_joinSp (ft.map lower) pat hne hsp h with ⟨x, hx, hxp⟩
    rcases List.mem_map.mp hx with ⟨p, hp, rfl⟩
    exact hall p hp hxp
  refine ⟨?_, ?_, rfl⟩
  · intro hy hn
    have h1 : incl (lower (joinSp ft)) (str "package-lock.json") = false := by
      simp only [incl, decide_eq_false_iff_not]
      exact hdown _ (by decide) (by decide) hn
    have h2 : incl (lower (joinSp ft)) (str "yarn.lock") = true := by
      simp only [incl, decide_eq_true_eq]
      exact hup _ hy
    simp [CodeAnalyzerAgent.detectPackageManager, h1, h2]
  · intro hnpm
    have h1 : incl (lower (joinSp ft)) (str "package-lock.json") = true := by
      simp only [incl, decide_eq_true_eq]
      exact hup _ hnpm
    simp [CodeAnalyzerAgent.detectPackageManager, h1]

/-- Witness for C4 at a concrete one-file tree. -/
theorem c4_witness :
    CodeAnalyzerAgent.detectPackageManager (some [str "app/yarn.lock"]) none = str "yarn" :=
  (c4_package_manager_priority [str "app/yarn.lock"] none).1 (by decide) (by decide)

/-- Claim C5 counterexample: a file tree that contains
"src/components/Foo.tsx" — after three other component files — produces a
"UI Components" module whose files do include the path but whose
key-symbol list (built from the first three matching files only) does not
include "Foo". -/
theorem c5_counterexample :
    str "src/components/Foo.tsx" ∈ ftThreeBeforeFoo
    ∧ ¬ (∃ m ∈ CodeAnalyzerAgent.buildModules (some ftThreeBeforeFoo) none,
        m.name = str "UI Components"
        ∧ str "src/components/Foo.tsx" ∈ m.files
        ∧ str "Foo" ∈ m.key_symbols) := by
  decide

/-- Claim C5 (amended): for every snapshot whose file tree contains
"src/components/Foo.tsx" among the first three files matching the
components fragment, the module list includes a module named
"UI Components" whose files include that path and whose key-symbols
include "Foo". -/
theorem c5_components_module (ft : List Str) (kf : Option (List (Str × Str)))
    (h : str "src/components/Foo.tsx" ∈
      (CodeAnalyzerAgent.moduleFiles ft (str "components")).take 3) :
    ∃ m ∈ CodeAnalyzerAgent.buildModules (some ft) kf,
      m.name = str "UI Components"
      ∧ str "src/components/Foo.tsx" ∈ m.files
      ∧ str "Foo" ∈ m.key_symbols := by
  have hmem : str "src/components/Foo.tsx" ∈ CodeAnalyzerAgent.moduleFiles ft (str "components") :=
    List.mem_of_mem_take h
  have hfne : CodeAnalyzerAgent.moduleFiles ft (str "components") ≠ [] :=
    List.ne_nil_of_mem hmem
  refine ⟨{ name := str "UI Components",
            files := (CodeAnalyzerAgent.moduleFiles ft (str "components")).take 5,
            purpose := str "Reusable UI building blocks",
            key_symbols := CodeAnalyzerAgent.extractKeySymbols
              (CodeAnalyzerAgent.moduleFiles ft (str "components")) kf },
        ?_, rfl, ?_, ?_⟩
  · refine List.mem_filterMap.mpr
      ⟨(str "components", str "UI Components", str "Reusable UI building blocks"), ?_, ?_⟩
    · exact List.mem_cons_self _ _
    · simp only [hfne, if_false, reduceIte]
  · have : (CodeAnalyzerAgent.moduleFiles ft (str "components")).take 3
        = ((CodeAnalyzerAgent.moduleFiles ft (str "components")).take 5).take 3 := by
      rw [List.take_take]
      norm_num
    rw [this] at h
    exact List.mem_of_mem_take h
  · show str "Foo" ∈ CodeAnalyzerAgent.extractKeySymbols
      (CodeAnalyzerAgent.moduleFiles ft (str "components")) kf
    unfold CodeAnalyzerAgent.extractKeySymbols
    rw [List.take_of_length_le
      (le_trans (List.length_filterMap_le _ _) (le_trans (List.length_take_le _ _) (by omega)))]
    exact List.mem_filterMap.mpr ⟨str "src/components/Foo.tsx", h, by decide⟩

/-- Witness for (amended) C5 at a concrete two-file tree. -/
theorem c5_witness :
    ∃ m ∈ CodeAnalyzerAgent.buildModules
        (some [str "readme.md", str "src/components/Foo.tsx"]) none,
      m.name = str "UI Components"
      ∧ str "src/components/Foo.tsx" ∈ m.files
      ∧ str "Foo" ∈ m.key_symbols :=
  c5_components_module [str "readme.md", str "src/components/Foo.tsx"] none (by decide)

/-- Claim C6: the entry-point list is an order-preserving subsequence of
the file tree (so file-tree order is kept and each file occurrence
contributes at most one entry, even when it matches several patterns), has
length at most 5, every entry matches some entry pattern, no path occurs
more often among the entries than in the file tree, and a duplicate-free
file tree yields duplicate-free entries. -/
theorem c6_entry_points_shape (ft : List Str) (kf : Option (List (Str × Str))) :
    List.Sublist (CodeAnalyzerAgent.findEntryPoints (some ft) kf) ft
    ∧ (CodeAnalyzerAgent.findEntryPoints (some ft) kf).length ≤ 5
    ∧ (∀ f ∈ CodeAnalyzerAgent.findEntryPoints (some ft) kf,
        (CodeAnalyzerAgent.entryPatterns.any fun p => incl (lower f) (lower p)) = true)
    ∧ (∀ f, (CodeAnalyzerAgent.findEntryPoints (some ft) kf).count f ≤ ft.count f)
    ∧ (ft.Nodup → (CodeAnalyzerAgent.findEntryPoints (some ft) kf).Nodup) := by
  have hsub : List.Sublist (CodeAnalyzerAgent.findEntryPoints (some ft) kf) ft := by
    show List.Sublist
      ((ft.filter fun file =>
        CodeAnalyzerAgent.entryPatterns.any fun p => incl (lower file) (lower p)).take 5) ft
    exact List.Sublist.trans (List.take_sublist _ _) (List.filter_sublist _)
  refine ⟨hsub, List.length_take_le _ _, ?_, fun f => List.Sublist.count_le hsub f, ?_⟩
  · intro f hf
    have hf' : f ∈ (ft.filter fun file =>
        CodeAnalyzerAgent.entryPatterns.any fun p => incl (lower file) (lower p)).take 5 := hf
    have hm : f ∈ ft.filter fun file =>
        CodeAnalyzerAgent.entryPatterns.any fun p => incl (lower file) (lower p) :=
      List.mem_of_mem_take hf'
    exact (List.mem_filter.mp hm).2
  · intro hnd
    exact List.Sublist.nodup hsub hnd

/-- Witness for C6 at a concrete file tree with a duplicate-free tree. -/
theorem c6_witness :
    (CodeAnalyzerAgent.findEntryPoints (some [str "src/index.ts", str "readme.md"]) none).Nodup :=
  ((c6_entry_points_shape [str "src/index.ts", str "readme.md"] none).2.2.2.2) (by decide)

/-- Every module built by `buildModules` keeps at least one matching file
(a module is only recorded when its fragment matched some path, and the
cap of 5 cannot empty a nonempty list). -/
theorem buildModules_files_nonempty (ft : List Str) (kf : Option (List (Str × Str))) :
    ∀ m ∈ CodeAnalyzerAgent.buildModules (some ft) kf, m.files ≠ [] := by
  intro m hm
  have hm' : m ∈ CodeAnalyzerAgent.modulePatterns.filterMap fun pat =>
      let files := CodeAnalyzerAgent.moduleFiles ft pat.1
      if files = [] then none
      else some { name := pat.2.1, files := files.take 5, purpose := pat.2.2,
                  key_symbols := CodeAnalyzerAgent.extractKeySymbols files kf } := hm
  rcases List.mem_filterMap.mp hm' with ⟨pat, -, hf⟩
  dsimp only at hf
  by_cases hfe : CodeAnalyzerAgent.moduleFiles ft pat.1 = []
  · rw [if_pos hfe] at hf
    exact Option.noConfusion hf
  · rw [if_neg hfe] at hf
    cases Option.some.inj hf
    simp only [ne_eq, List.take_eq_nil_iff]
    push_neg
    exact ⟨by omega, hfe⟩

/-- The data-flow heuristic never emits more than two edges. -/
theorem inferDataFlowEdges_length_le (modules : List CodeAnalyzerAgent.Module)
    (eps : List Str) :
    (CodeAnalyzerAgent.inferDataFlowEdges modules eps).length ≤ 2 := by
  unfold CodeAnalyzerAgent.inferDataFlowEdges
  split
  · cases hpm : modules.find? fun m => incl (lower m.name) (str "page") with
    | none =>
      cases hcm : modules.find? fun m => incl (lower m.name) (str "component") with
      | none => simp [hpm, hcm]
      | some cm => simp [hpm, hcm]
    | some pm =>
      cases hcm : modules.find? fun m => incl (lower m.name) (str "component") with
      | none => simp [hpm, hcm]; split <;> simp
      | some cm => simp [hpm, hcm]; split <;> split <;> simp
  · simp

/-- Claim C8: for the classifier's own modules and entry points, the edge
list has length at most 2; with an entry point, more than one module and a
"page"-labeled module present, the first edge runs from the first entry
point to the pages module's first file, and with a "component"-labeled
module also present the second edge runs from the pages module's first
file to the components module's first file; in every other case no edges
are produced (a built module always has a file, so the source's
file-nonempty guards always pass). -/
theorem c8_data_flow_edges (ft : List Str) (kf : Option (List (Str × Str)))
    (modules : List CodeAnalyzerAgent.Module) (eps : List Str)
    (edges : List CodeAnalyzerAgent.Edge)
    (hm : modules = CodeAnalyzerAgent.buildModules (some ft) kf)
    (_he : eps = CodeAnalyzerAgent.findEntryPoints (some ft) kf)
    (hed : edges = CodeAnalyzerAgent.inferDataFlowEdges modules eps) :
    edges.length ≤ 2
    ∧ (∀ pm, (modules.find? fun m => incl (lower m.name) (str "page")) = some pm →
        (modules.find? fun m => incl (lower m.name) (str "component")) = none →
        eps ≠ [] → 1 < modules.length →
        edges = [⟨eps.head?, pm.files.head?,
                  str "Entry point initializes and renders pages"⟩])
    ∧ (∀ pm cm, (modules.find? fun m => incl (lower m.name) (str "page")) = some pm →
        (modules.find? fun m => incl (lower m.name) (str "component")) = some cm →
        eps ≠ [] → 1 < modules.length →
        edges = [⟨eps.head?, pm.files.head?,
                  str "Entry point initializes and renders pages"⟩,
                 ⟨pm.files.head?, cm.files.head?,
                  str "Pages compose and render UI components"⟩])
    ∧ ((eps = [] ∨ modules.length ≤ 1 ∨
        (modules.find? fun m => incl (lower m.name) (str "page")) = none) →
        edges = []) := by
  subst hed
  refine ⟨inferDataFlowEdges_length_le _ _, ?_, ?_, ?_⟩
  · intro pm hpm hcm hne hlen
    have hpf : pm.files ≠ [] :=
      buildModules_files_nonempty ft kf pm (hm ▸ List.mem_of_find?_eq_some hpm)
    unfold CodeAnalyzerAgent.inferDataFlowEdges
    rw [if_pos ⟨List.length_pos.mpr hne, hlen⟩]
    simp [hpm, hcm, List.length_pos.mpr hpf]
  · intro pm cm hpm hcm hne hlen
    have hpf : pm.files ≠ [] :=
      buildModules_files_nonempty ft kf pm (hm ▸ List.mem_of_find?_eq_some hpm)
    have hcf : cm.files ≠ [] :=
      buildModules_files_nonempty ft kf cm (hm ▸ List.mem_of_find?_eq_some hcm)
    unfold CodeAnalyzerAgent.inferDataFlowEdges
    rw [if_pos ⟨List.length_pos.mpr hne, hlen⟩]
    simp [hpm, hcm, List.length_pos.mpr hpf, List.length_pos.mpr hcf]
  · intro hcase
    unfold CodeAnalyzerAgent.inferDataFlowEdges
    rcases hcase with heps | hlen | hpm
    · rw [if_neg]
      rintro ⟨h1, -⟩
      rw [heps] at h1
      exact absurd h1 (by simp)
    · rw [if_neg]
      rintro ⟨-, h2⟩
      omega
    · split
      · simp [hpm]
      · rfl

/-- Witness for C8 at a concrete tree with an entry point, a pages module
and a components module. -/
theorem c8_witness :
    CodeAnalyzerAgent.inferDataFlowEdges
      (CodeAnalyzerAgent.buildModules
        (some [str "src/main.tsx", str "src/pages/Home.tsx", str "src/components/Btn.tsx"]) none)
      (CodeAnalyzerAgent.findEntryPoints
        (some [str "src/main.tsx", str "src/pages/Home.tsx", str "src/components/Btn.tsx"]) none)
    = [⟨some (str "src/main.tsx"), some (str "src/pages/Home.tsx"),
        str "Entry point initializes and renders pages"⟩,
       ⟨some (str "src/pages/Home.tsx"), some (str "src/components/Btn.tsx"),
        str "Pages compose and render UI components"⟩] := by
  have h := (c8_data_flow_edges
    [str "src/main.tsx", str "src/pages/Home.tsx", str "src/components/Btn.tsx"] none
    (CodeAnalyzerAgent.buildModules
      (some [str "src/main.tsx", str "src/pages/Home.tsx", str "src/components/Btn.tsx"]) none)
    (CodeAnalyzerAgent.findEntryPoints
      (some [str "src/main.tsx", str "src/pages/Home.tsx", str "src/components/Btn.tsx"]) none)
    _ rfl rfl rfl).2.2.1
    { name := str "Application Pages", files := [str "src/pages/Home.tsx"],
      purpose := str "Top-level page components and views",
      key_symbols := [str "Home"] }
    { name := str "UI Components", files := [str "src/components/Btn.tsx"],
      purpose := str "Reusable UI building blocks",
      key_symbols := [str "Btn"] }
    (by decide) (by decide) (by decide) (by decide)
  rw [h]
  decide

/-- Claim C9: on analysis records (whose concept list is always present,
possibly empty), the assembler's difficulty derivation agrees with the
spec's rule: "advanced" for more than 10 modules or any advanced concept,
"intermediate" for more than 5 modules, "beginner" otherwise. -/
theorem c9_difficulty_rule (cs : List Str)
    (modules : Option (List CodeAnalyzerAgent.Module)) :
    TeacherAgent.determineDifficulty (some cs) modules
      = TeacherAgent.specDifficulty cs modules := by
  cases modules with
  | none =>
    simp only [TeacherAgent.determineDifficulty, TeacherAgent.specDifficulty]
    norm_num
  | some ms =>
    simp only [TeacherAgent.determineDifficulty, TeacherAgent.specDifficulty]
    rw [Bool.or_comm]

/-- Claim C10: the Setup & Run stage of the learning journey always has a
quiz whose answer is the install command, placed first in the options list
before deduplication, hence contained in the deduplicated options. -/
theorem c10_setup_quiz (mc : Option (List Str))
    (ms : Option (List CodeAnalyzerAgent.Module)) (ep : Option (List Str))
    (dc : Option CodeAnalyzerAgent.DevCommands) (pm : Option Str) :
    ∃ st, (TeacherAgent.generateInteractiveLearningPath mc ms ep dc pm).head? = some st
      ∧ st.stage = str "Setup & Run"
      ∧ ∃ q, st.quiz = some [q]
        ∧ q.answer = TeacherAgent.installOf dc
        ∧ q.options.head? = some q.answer
        ∧ q.answer ∈ q.options := by
  refine ⟨_, rfl, rfl, _, rfl, rfl, ?_, ?_⟩ <;>
    simp [TeacherAgent.dedupFirst, TeacherAgent.dedupFirstAux]

/-- Claim C1: a failed crawl short-circuits the pipeline: the run fails
with the "RepoCrawler failed: " message built from the crawler's error,
the per-step record holds exactly the one failed crawler entry, and the
classifier and assembler collaborators are never consulted (the result is
the same for any other pair of collaborators). -/
theorem c1_crawler_failure_short_circuits
    (crawl : Str → AgentResponse RepoSnapshot)
    (analyze analyze2 : Option RepoSnapshot → AgentResponse CodeAnalyzerAgent.AnalysisRecord)
    (teach teach2 : Option RepoSnapshot → Option CodeAnalyzerAgent.AnalysisRecord →
      AgentResponse Str)
    (repoUrl : Str)
    (hfail : (crawl repoUrl).success = false) :
    (AgentOrchestrator.generateTutorial crawl analyze teach repoUrl).success = false
    ∧ (AgentOrchestrator.generateTutorial crawl analyze teach repoUrl).error
      = some (str "RepoCrawler failed: " ++ AgentOrchestrator.tmplError (crawl repoUrl).error)
    ∧ (AgentOrchestrator.generateTutorial crawl analyze teach repoUrl).agentResults
      = [(str "repoCrawler",
          AgentOrchestrator.liftResponse AgentOrchestrator.AgentData.snap (crawl repoUrl))]
    ∧ AgentOrchestrator.generateTutorial crawl analyze teach repoUrl
      = AgentOrchestrator.generateTutorial crawl analyze2 teach2 repoUrl := by
  unfold AgentOrchestrator.generateTutorial
  simp [hfail]

/-- Witness for C1 with a concrete failing crawler. -/
theorem c1_witness :
    (AgentOrchestrator.generateTutorial
      (fun _ => { success := false, data := none, error := some (str "boom"),
                  agentName := str "RepoCrawler" })
      (fun _ => { success := true, data := none, error := none,
                  agentName := str "CodeAnalyzer" })
      (fun _ _ => { success := true, data := none, error := none,
                    agentName := str "Teacher" })
      (str "https://example.com/repo")).error
    = some (str "RepoCrawler failed: boom") := by
  have h := (c1_crawler_failure_short_circuits
    (fun _ => { success := false, data := none, error := some (str "boom"),
                agentName := str "RepoCrawler" })
    (fun _ => { success := true, data := none, error := none,
                agentName := str "CodeAnalyzer" })
    (fun _ => { success := true, data := none, error := none,
                agentName := str "CodeAnalyzer" })
    (fun _ _ => { success := true, data := none, error := none,
                  agentName := str "Teacher" })
    (fun _ _ => { success := true, data := none, error := none,
                  agentName := str "Teacher" })
    (str "https://example.com/repo") rfl).2.1
  rw [h]
  decide

/-- Claim C2: the per-step record lists exactly the attempted steps in
attempted order (a step is attempted only when every prior step
succeeded), and — when the assembler collaborator returns a document
whenever it succeeds, as the source assembler does — the tutorial field is
present exactly when the run succeeded. -/
theorem c2_per_step_results_invariant
    (crawl : Str → AgentResponse RepoSnapshot)
    (analyze : Option RepoSnapshot → AgentResponse CodeAnalyzerAgent.AnalysisRecord)
    (teach : Option RepoSnapshot → Option CodeAnalyzerAgent.AnalysisRecord →
      AgentResponse Str)
    (repoUrl : Str)
    (hteach : ∀ s a, (teach s a).success = true → (teach s a).data.isSome = true) :
    ((AgentOrchestrator.generateTutorial crawl analyze teach repoUrl).agentResults.map
        Prod.fst = [str "repoCrawler"]
      ∧ (crawl repoUrl).success = false
     ∨ (AgentOrchestrator.generateTutorial crawl analyze teach repoUrl).agentResults.map
        Prod.fst = [str "repoCrawler", str "codeAnalyzer"]
      ∧ (crawl repoUrl).success = true
      ∧ (analyze (crawl repoUrl).data).success = false
     ∨ (AgentOrchestrator.generateTutorial crawl analyze teach repoUrl).agentResults.map
        Prod.fst = [str "repoCrawler", str "codeAnalyzer", str "teacher"]
      ∧ (crawl repoUrl).success = true
      ∧ (analyze (crawl repoUrl).data).success = true)
    ∧ ((AgentOrchestrator.generateTutorial crawl analyze teach repoUrl).tutorial.isSome = true
      ↔ (AgentOrchestrator.generateTutorial crawl analyze teach repoUrl).success = true) := by
  by_cases h1 : (crawl repoUrl).success = true
  · by_cases h2 : (analyze (crawl repoUrl).data).success = true
    · by_cases h3 : (teach (crawl repoUrl).data (analyze (crawl repoUrl).data).data).success = true
      · refine ⟨Or.inr (Or.inr ⟨?_, h1, h2⟩), ?_⟩
        · unfold AgentOrchestrator.generateTutorial
          simp [h1, h2, h3]
        · unfold AgentOrchestrator.generateTutorial
          simp [h1, h2, h3]
          exact hteach _ _ h3
      · refine ⟨Or.inr (Or.inr ⟨?_, h1, h2⟩), ?_⟩
        · unfold AgentOrchestrator.generateTutorial
          simp [h1, h2, h3]
        · unfold AgentOrchestrator.generateTutorial
          simp [h1, h2, h3]
    · refine ⟨Or.inr (Or.inl ⟨?_, h1, Bool.eq_false_iff.mpr h2⟩), ?_⟩
      · unfold AgentOrchestrator.generateTutorial
        simp [h1, h2]
      · unfold AgentOrchestrator.generateTutorial
        simp [h1, h2]
  · refine ⟨Or.inl ⟨?_, Bool.eq_false_iff.mpr h1⟩, ?_⟩
    · unfold AgentOrchestrator.generateTutorial
      simp [h1]
    · unfold AgentOrchestrator.generateTutorial
      simp [h1]

/-- Witness for C2 with an always-succeeding concrete pipeline. -/
theorem c2_witness :
    (AgentOrchestrator.generateTutorial
      (fun _ => { success := true, data := some emptySnapshot, error := none,
                  agentName := str "RepoCrawler" })
      (fun _ => CodeAnalyzerAgent.analyzeRepo emptySnapshot)
      (fun _ _ => { success := true, data := some (str "doc"), error := none,
                    agentName := str "Teacher" })
      (str "https://example.com/repo")).tutorial.isSome = true := by
  have h := (c2_per_step_results_invariant
    (fun _ => { success := true, data := some emptySnapshot, error := none,
                agentName := str "RepoCrawler" })
    (fun _ => CodeAnalyzerAgent.analyzeRepo emptySnapshot)
    (fun _ _ => { success := true, data := some (str "doc"), error := none,
                  agentName := str "Teacher" })
    (str "https://example.com/repo")
    (fun _ _ _ => rfl)).2
  exact h.mpr rfl

end CommitComrade
